import Mathlib

/-!
Verification of the schema-diff migration generator (`scripts/run.py`).

The development embeds the core of the program shallowly:

* JSON scalar values are `JValue`; Python dictionaries appearing in the
  program (column definitions, `columns` maps, `tables` maps) are
  association lists with nodup keys as the representation invariant.
* `diff_schemas`, `column_sql`, the four dialect emitters, `render_sql`
  and `dry_run_summary` are translated function by function from the
  source.  A Python expression that can raise `KeyError` is embedded as
  an `Option`-valued access, so "the code never raises" becomes "the
  embedded function returns `some`".
* Python's `sorted` over strings is embedded as insertion sort over the
  code-point lexicographic order (`strLe`); Python string formatting is
  embedded with explicit concatenation (`pyStr`, `quoteIdent`, ...).
-/

/-- Scalar JSON value as it occurs in a schema file: string, integer
number, boolean or null. -/
inductive JValue where
  | str (s : String)
  | num (n : Int)
  | bool (b : Bool)
  | null
deriving DecidableEq, Repr

/-- Python `str()` of a scalar value. -/
def pyStr : JValue → String
  | .str s => s
  | .num n => toString n
  | .bool true => "True"
  | .bool false => "False"
  | .null => "None"

/-- Python truthiness of a scalar value. -/
def truthy : JValue → Bool
  | .str s => !(s == "")
  | .num n => !(n == 0)
  | .bool b => b
  | .null => false

/-- Python truthiness of `d.get(k)`: `None` (absent) is falsy. -/
def truthyO : Option JValue → Bool
  | some v => truthy v
  | none => false

/-- Python `x is False`: only the boolean `False` itself. -/
def isFalseO : Option JValue → Bool
  | some (.bool false) => true
  | _ => false

/-- Python `==` on scalar values (`True == 1` and `False == 0` hold in
Python because `bool` is an `int` subclass). -/
def pyEqV : JValue → JValue → Bool
  | .str a, .str b => a == b
  | .num a, .num b => a == b
  | .bool a, .bool b => a == b
  | .bool a, .num b => (if a then (1 : Int) else 0) == b
  | .num a, .bool b => a == (if b then (1 : Int) else 0)
  | .null, .null => true
  | _, _ => false

/-- Python `==` on `d.get(k)` results (`None == None` is `True`,
`None == v` is `False` for scalar `v`). -/
def pyEqO : Option JValue → Option JValue → Bool
  | some a, some b => pyEqV a b
  | none, none => true
  | _, _ => false

/-- Python `s.upper()` (ASCII letters, which is all the program relies on). -/
def pyUpper (s : String) : String := ⟨s.data.map Char.toUpper⟩

/-- Python `s.startswith(p)`. -/
def pyStartsWith (s p : String) : Bool := p.data.isPrefixOf s.data

/-- Python `f'"{name}"'`: wrap an identifier in double quotes. -/
def quoteIdent (s : String) : String := "\"" ++ s ++ "\""

/-- Python `f"{op.column}"` where the field may be `None`. -/
def pyStrOptS : Option String → String
  | some s => s
  | none => "None"

/-- Python `sep.join(lines)`. -/
def joinSep (sep : String) : List String → String
  | [] => ""
  | [a] => a
  | a :: b :: l => a ++ sep ++ joinSep sep (b :: l)

/-- Boolean code-point lexicographic strict comparison on char lists,
the order Python uses to compare strings. -/
def charListLt : List Char → List Char → Bool
  | [], [] => false
  | [], _ :: _ => true
  | _ :: _, [] => false
  | a :: as, b :: bs => if a < b then true else if b < a then false else charListLt as bs

/-- Boolean strict string comparison (Python `a < b`). -/
def strLt (a b : String) : Bool := charListLt a.data b.data

/-- Boolean string comparison (Python `a <= b`). -/
def strLe (a b : String) : Bool := !(charListLt b.data a.data)

/-- Insert a string into a sorted list of strings. -/
def insertKey (a : String) : List String → List String
  | [] => [a]
  | b :: l => if strLe a b then a :: b :: l else b :: insertKey a l

/-- Python `sorted` on a list of strings (insertion sort; on nodup key
lists it produces the unique sorted permutation, which is exactly what
`sorted` returns on a set or dict view of keys). -/
def sortKeys : List String → List String
  | [] => []
  | a :: l => insertKey a (sortKeys l)

/-- Concatenation of the lists produced for each element, in order
(Python's repeated `list.extend` inside a `for` loop). -/
def concatMap (f : α → List β) : List α → List β
  | [] => []
  | a :: l => f a ++ concatMap f l

/-- Column definition: the Python dict of column attributes. -/
abbrev ColDef := List (String × JValue)

/-- The `columns` dict of one table. -/
abbrev ColsDict := List (String × ColDef)

/-- Table definition `{"columns": {...}}` (table-level metadata beyond
`columns` is ignored by every code path of the program). -/
structure TableDef where
  columns : ColsDict
deriving DecidableEq, Repr

/-- Validated schema object: the `tables` mapping. -/
structure Schema where
  tables : List (String × TableDef)
deriving DecidableEq, Repr

/-- Key list of an association list (dict key view). -/
def keyList (m : List (String × α)) : List String := m.map Prod.fst

/-- Python dict lookup where the program has already established that
the key is present (`src_tables[table]` for a key drawn from the key
set); the default is unreachable on dict-like inputs. -/
def getTable (m : List (String × TableDef)) (k : String) : TableDef :=
  (m.lookup k).getD ⟨[]⟩

/-- Column-definition lookup, same convention as `getTable`. -/
def getCol (m : ColsDict) (k : String) : ColDef :=
  (m.lookup k).getD []

/-- Python `==` on two attribute dicts: same key set, `==`-equal value
at every key. -/
def dictEq (a b : ColDef) : Bool :=
  (a.all fun kv =>
    match b.lookup kv.1 with
    | some v => pyEqV kv.2 v
    | none => false) &&
  (b.all fun kv =>
    match a.lookup kv.1 with
    | some v => pyEqV kv.2 v
    | none => false)

/-- Payload dict attached to an operation, one shape per producing site:
the full table definition for `create_table`, `{"column_def": d}` for
`add_column`, `{"from": f, "to": t}` for `alter_column`, `{}` otherwise. -/
inductive Payload where
  | empty
  | table (td : TableDef)
  | colDef (cd : ColDef)
  | fromTo (src tgt : ColDef)
deriving DecidableEq, Repr

/-- The `Operation` class of the source. -/
structure Operation where
  op_type : String
  table : String
  column : Option String
  payload : Payload
  destructive : Bool
deriving DecidableEq, Repr

/-- Destructive flag computed for an `alter_column` in `diff_schemas`:
`src_def.get("nullable", True)` truthy and `tgt_def.get("nullable") is
False`, or `src_def.get("type") != tgt_def.get("type")`. -/
def alterDestructive (src_def tgt_def : ColDef) : Bool :=
  (truthy ((src_def.lookup "nullable").getD (.bool true)) && isFalseO (tgt_def.lookup "nullable"))
  || !(pyEqO (src_def.lookup "type") (tgt_def.lookup "type"))

/-- Tables in the target but not the source, sorted (`sorted(tgt_tables.keys() - src_tables.keys())`). -/
def newTables (src tgt : List (String × TableDef)) : List String :=
  sortKeys ((keyList tgt).filter fun k => !((keyList src).contains k))

/-- Tables in the source but not the target, sorted. -/
def removedTables (src tgt : List (String × TableDef)) : List String :=
  sortKeys ((keyList src).filter fun k => !((keyList tgt).contains k))

/-- Tables present in both schemas, sorted (`sorted(src_tables.keys() & tgt_tables.keys())`). -/
def commonTables (src tgt : List (String × TableDef)) : List String :=
  sortKeys ((keyList src).filter fun k => (keyList tgt).contains k)

/-- Per-table body of the diff loop: added columns, then dropped
columns, then altered columns, each in sorted column order. -/
def tableBlock (table : String) (src_cols tgt_cols : ColsDict) : List Operation :=
  ((sortKeys ((keyList tgt_cols).filter fun c => !((keyList src_cols).contains c))).map
    fun c => ⟨"add_column", table, some c, .colDef (getCol tgt_cols c), false⟩)
  ++ ((sortKeys ((keyList src_cols).filter fun c => !((keyList tgt_cols).contains c))).map
    fun c => ⟨"drop_column", table, some c, .empty, true⟩)
  ++ ((sortKeys ((keyList src_cols).filter fun c => (keyList tgt_cols).contains c)).filterMap
    fun c =>
      if dictEq (getCol src_cols c) (getCol tgt_cols c) then none
      else some ⟨"alter_column", table, some c,
        .fromTo (getCol src_cols c) (getCol tgt_cols c),
        alterDestructive (getCol src_cols c) (getCol tgt_cols c)⟩)

/-- The diff engine `diff_schemas`. -/
def diff_schemas (source target : Schema) : List Operation :=
  ((newTables source.tables target.tables).map
    fun t => ⟨"create_table", t, none, .table (getTable target.tables t), false⟩)
  ++ ((removedTables source.tables target.tables).map
    fun t => ⟨"drop_table", t, none, .empty, true⟩)
  ++ concatMap
    (fun t => tableBlock t (getTable source.tables t).columns (getTable target.tables t).columns)
    (commonTables source.tables target.tables)

/-- SQL literal for a default value: a string not beginning
(case-insensitively) with `CURRENT_` is wrapped in single quotes, any
other value is emitted as Python `str()` of it. -/
def defaultSql : JValue → String
  | .str s => if !(pyStartsWith (pyUpper s) "CURRENT_") then "'" ++ s ++ "'" else s
  | v => pyStr v

/-- The column fragment renderer `column_sql`; `none` models the
`KeyError` raised when the definition has no `type`. -/
def column_sql (col_name : String) (col_def : ColDef) (dialect : String) : Option String := do
  let ty ← col_def.lookup "type"
  let parts := [quoteIdent col_name, pyStr ty]
  let parts := parts ++ (if truthyO (col_def.lookup "primary_key") then ["PRIMARY KEY"] else [])
  let parts := parts ++ (if isFalseO (col_def.lookup "nullable") then ["NOT NULL"] else [])
  let parts := parts ++
    (match col_def.lookup "default" with
     | some v => if v == .null then [] else ["DEFAULT " ++ defaultSql v]
     | none => [])
  let parts := parts ++
    (if dialect == "sqlite" && truthyO (col_def.lookup "autoincrement") then ["AUTOINCREMENT"] else [])
  pure (joinSep " " parts)

/-- Render each named column of a `create_table` payload in turn
(the generator expression inside the `join`). -/
def renderCols (cols : ColsDict) (dialect : String) : List String → Option (List String)
  | [] => some []
  | n :: ns => do
    let s ← column_sql n (getCol cols n) dialect
    let rest ← renderCols cols dialect ns
    pure (s :: rest)

/-- Access `op.payload["columns"]`; `none` models the `KeyError` on a
payload of any other shape. -/
def Payload.columnsD : Payload → Option ColsDict
  | .table td => some td.columns
  | _ => none

/-- Access `op.payload["column_def"]`. -/
def Payload.columnDefD : Payload → Option ColDef
  | .colDef cd => some cd
  | _ => none

/-- Access `op.payload["from"]` and `op.payload["to"]`. -/
def Payload.fromToD : Payload → Option (ColDef × ColDef)
  | .fromTo a b => some (a, b)
  | _ => none

/-- The three `ALTER COLUMN` statements emitted for an `alter_column`
(type, nullability, default), shared verbatim between `pg_up_sql`
(using the "to" definition) and `pg_down_sql` (using "from"). -/
def pgAlterLines (table : String) (column : Option String) (d : ColDef) : Option (List String) := do
  let ty ← d.lookup "type"
  let head := "ALTER TABLE " ++ quoteIdent table ++ " ALTER COLUMN " ++ quoteIdent (pyStrOptS column)
  let l1 := head ++ " TYPE " ++ pyStr ty ++ ";"
  let l2 :=
    if truthy ((d.lookup "nullable").getD (.bool true)) then head ++ " DROP NOT NULL;"
    else head ++ " SET NOT NULL;"
  let l3 :=
    match d.lookup "default" with
    | some v => if v == .null then head ++ " DROP DEFAULT;" else head ++ " SET DEFAULT " ++ defaultSql v ++ ";"
    | none => head ++ " DROP DEFAULT;"
  pure [l1, l2, l3]

/-- Postgres forward emitter `pg_up_sql`. -/
def pg_up_sql (op : Operation) : Option (List String) :=
  if op.op_type == "create_table" then do
    let cols ← op.payload.columnsD
    let rendered ← renderCols cols "postgres" (sortKeys (keyList cols))
    pure ["CREATE TABLE " ++ quoteIdent op.table ++ " (\n  " ++ joinSep ",\n  " rendered ++ "\n);"]
  else if op.op_type == "drop_table" then
    some ["DROP TABLE " ++ quoteIdent op.table ++ ";"]
  else if op.op_type == "add_column" then do
    let cd ← op.payload.columnDefD
    let s ← column_sql (op.column.getD "") cd "postgres"
    pure ["ALTER TABLE " ++ quoteIdent op.table ++ " ADD COLUMN " ++ s ++ ";"]
  else if op.op_type == "drop_column" then
    some ["ALTER TABLE " ++ quoteIdent op.table ++ " DROP COLUMN " ++ quoteIdent (pyStrOptS op.column) ++ ";"]
  else if op.op_type == "alter_column" then do
    let ft ← op.payload.fromToD
    pgAlterLines op.table op.column ft.2
  else
    some ["-- unsupported operation: " ++ op.op_type]

/-- Postgres reverse emitter `pg_down_sql`. -/
def pg_down_sql (op : Operation) : Option (List String) :=
  if op.op_type == "create_table" then
    some ["DROP TABLE " ++ quoteIdent op.table ++ ";"]
  else if op.op_type == "drop_table" then
    some ["-- manual rollback required: recreate dropped table " ++ quoteIdent op.table]
  else if op.op_type == "add_column" then
    some ["ALTER TABLE " ++ quoteIdent op.table ++ " DROP COLUMN " ++ quoteIdent (pyStrOptS op.column) ++ ";"]
  else if op.op_type == "drop_column" then
    some ["-- manual rollback required: re-add dropped column " ++ quoteIdent (op.table ++ "." ++ pyStrOptS op.column)]
  else if op.op_type == "alter_column" then do
    let ft ← op.payload.fromToD
    pgAlterLines op.table op.column ft.1
  else
    some ["-- unsupported operation: " ++ op.op_type]

/-- SQLite forward emitter `sqlite_up_sql`. -/
def sqlite_up_sql (op : Operation) : Option (List String) :=
  if op.op_type == "create_table" then do
    let cols ← op.payload.columnsD
    let rendered ← renderCols cols "sqlite" (sortKeys (keyList cols))
    pure ["CREATE TABLE " ++ quoteIdent op.table ++ " (\n  " ++ joinSep ",\n  " rendered ++ "\n);"]
  else if op.op_type == "drop_table" then
    some ["DROP TABLE " ++ quoteIdent op.table ++ ";"]
  else if op.op_type == "add_column" then do
    let cd ← op.payload.columnDefD
    let s ← column_sql (op.column.getD "") cd "sqlite"
    pure ["ALTER TABLE " ++ quoteIdent op.table ++ " ADD COLUMN " ++ s ++ ";"]
  else if op.op_type == "drop_column" || op.op_type == "alter_column" then
    some ["-- manual action required in sqlite: " ++ op.op_type ++ " on " ++ quoteIdent (op.table ++ "." ++ pyStrOptS op.column)]
  else
    some ["-- unsupported operation: " ++ op.op_type]

/-- SQLite reverse emitter `sqlite_down_sql`. -/
def sqlite_down_sql (op : Operation) : Option (List String) :=
  if op.op_type == "create_table" then
    some ["DROP TABLE " ++ quoteIdent op.table ++ ";"]
  else if op.op_type == "drop_table" then
    some ["-- manual rollback required: recreate dropped table " ++ quoteIdent op.table]
  else if op.op_type == "add_column" then
    some ["-- manual rollback required in sqlite: drop column " ++ quoteIdent (op.table ++ "." ++ pyStrOptS op.column)]
  else if op.op_type == "drop_column" || op.op_type == "alter_column" then
    some ["-- manual rollback required in sqlite: " ++ op.op_type ++ " on " ++ quoteIdent (op.table ++ "." ++ pyStrOptS op.column)]
  else
    some ["-- unsupported operation: " ++ op.op_type]

/-- Dialect dispatch of the rendering loop (`if dialect == "postgres"`),
forward direction. -/
def emitUp (dialect : String) (op : Operation) : Option (List String) :=
  if dialect == "postgres" then pg_up_sql op else sqlite_up_sql op

/-- Dialect dispatch, reverse direction. -/
def emitDown (dialect : String) (op : Operation) : Option (List String) :=
  if dialect == "postgres" then pg_down_sql op else sqlite_down_sql op

/-- The accumulation loop of `render_sql`: extend `up_lines` and
`down_lines` with each operation's statements in turn. -/
def renderLoop (dialect : String) : List Operation → List String → List String → Option (List String × List String)
  | [], up, down => some (up, down)
  | op :: rest, up, down => do
    let u ← emitUp dialect op
    let d ← emitDown dialect op
    renderLoop dialect rest (up ++ u) (down ++ d)

/-- The report assembler `render_sql`: header, up lines, separator,
`reversed(down_lines)`, trailing newline. -/
def render_sql (ops : List Operation) (dialect : String) : Option String := do
  let pair ← renderLoop dialect ops [] []
  pure (joinSep "\n"
    (["-- Generated by database-migration-generator", "-- UP"]
      ++ pair.1 ++ [""] ++ ["-- DOWN"] ++ pair.2.reverse ++ [""]))

/-- Python `by_type[op.op_type] = by_type.get(op.op_type, 0) + 1` on an
insertion-ordered dict represented as an association list. -/
def bumpCount : List (String × Nat) → String → List (String × Nat)
  | [], k => [(k, 1)]
  | (k2, n) :: rest, k => if k2 == k then (k2, n + 1) :: rest else (k2, n) :: bumpCount rest k

/-- The counting loop of `dry_run_summary`. -/
def tally : List (String × Nat) → List Operation → List (String × Nat)
  | m, [] => m
  | m, op :: rest => tally (bumpCount m op.op_type) rest

/-- Lookup in the count dict (`by_type[key]`, key known present). -/
def countNat (m : List (String × Nat)) (k : String) : Nat := (m.lookup k).getD 0

/-- The dry-run report `dry_run_summary`. -/
def dry_run_summary (ops : List Operation) : String :=
  let by_type := tally [] ops
  joinSep "\n"
    (["Dry-run summary:", "  total_operations: " ++ toString ops.length]
      ++ ((sortKeys (keyList by_type)).map fun k => "  " ++ k ++ ": " ++ toString (countNat by_type k))
      ++ ["  destructive_operations: " ++ toString (ops.countP fun op => op.destructive)])

/-- Summary as the spec words it (used to compare `dry_run_summary`
against claim C9): total count, one line per operation kind in sorted
kind order with that kind's count, then the destructive count. -/
def dry_run_summary_spec (ops : List Operation) : String :=
  joinSep "\n"
    (["Dry-run summary:", "  total_operations: " ++ toString ops.length]
      ++ ((sortKeys ((ops.map fun op => op.op_type).dedup)).map fun k =>
            "  " ++ k ++ ": " ++ toString (ops.countP fun op => op.op_type == k))
      ++ ["  destructive_operations: " ++ toString (ops.countP fun op => op.destructive)])

/-- Per-operation statement blocks for both directions, keeping each
block intact (used to state claim C1 in the spec's own words). -/
def collectBlocks (dialect : String) : List Operation → Option (List (List String) × List (List String))
  | [] => some ([], [])
  | op :: rest => do
    let u ← emitUp dialect op
    let d ← emitDown dialect op
    let pr ← collectBlocks dialect rest
    pure (u :: pr.1, d :: pr.2)

/-- Rendering as claim C1 words it: up blocks in operation order, then
the separator, then down blocks in reverse operation order with each
block keeping its own internal statement order. -/
def render_sql_claimC1 (ops : List Operation) (dialect : String) : Option String := do
  let pr ← collectBlocks dialect ops
  pure (joinSep "\n"
    (["-- Generated by database-migration-generator", "-- UP"]
      ++ concatMap (fun b => b) pr.1 ++ [""] ++ ["-- DOWN"]
      ++ concatMap (fun b => b) pr.2.reverse ++ [""]))

/-! Basic facts about the embedded string order and `sortKeys`. -/

theorem charListLt_iff : ∀ as bs : List Char, charListLt as bs = true ↔ as < bs
  | [], [] => by
    constructor
    · intro h; simp [charListLt] at h
    · intro h; cases h
  | [], b :: bs => by
    simp only [charListLt]
    constructor
    · intro _; exact List.Lex.nil
    · intro _; trivial
  | a :: as, [] => by
    constructor
    · intro h; simp [charListLt] at h
    · intro h; cases h
  | a :: as, b :: bs => by
    rw [charListLt]
    by_cases hab : a < b
    · simp only [if_pos hab]
      constructor
      · intro _; exact List.Lex.rel hab
      · intro _; trivial
    · by_cases hba : b < a
      · simp only [if_neg hab, if_pos hba]
        constructor
        · intro h; cases h
        · intro h
          cases h with
          | cons _ => exact absurd hba (lt_irrefl _)
          | rel h' => exact absurd h' hab
      · have heq : a = b := le_antisymm (not_lt.mp hba) (not_lt.mp hab)
        subst heq
        simp only [if_neg hab, if_neg hba]
        rw [charListLt_iff as bs]
        constructor
        · intro h; exact List.Lex.cons h
        · intro h
          cases h with
          | cons h' => exact h'
          | rel h' => exact absurd h' hab

theorem strLt_iff (a b : String) : strLt a b = true ↔ a < b :=
  (charListLt_iff a.data b.data).trans String.lt_iff_toList_lt.symm

theorem strLe_iff (a b : String) : strLe a b = true ↔ a ≤ b := by
  rw [strLe, Bool.not_eq_true', ← not_lt, ← strLt_iff, strLt]
  simp

theorem insertKey_perm (a : String) (l : List String) :
    List.Perm (insertKey a l) (a :: l) := by
  induction l with
  | nil => exact List.Perm.refl _
  | cons b t ih =>
    rw [insertKey]
    by_cases h : strLe a b = true
    · simp [h]
    · simp only [if_neg h]
      exact (ih.cons b).trans (List.Perm.swap a b t)

theorem mem_insertKey (x a : String) (l : List String) :
    x ∈ insertKey a l ↔ x = a ∨ x ∈ l := by
  rw [(insertKey_perm a l).mem_iff, List.mem_cons]

theorem sorted_insertKey (a : String) (l : List String)
    (h : List.Sorted (· ≤ ·) l) : List.Sorted (· ≤ ·) (insertKey a l) := by
  induction l with
  | nil => simp [insertKey]
  | cons b t ih =>
    rw [insertKey]
    rcases List.sorted_cons.mp h with ⟨hb, ht⟩
    by_cases hab : strLe a b = true
    · rw [if_pos hab]
      refine List.sorted_cons.mpr ⟨?_, h⟩
      intro x hx
      rcases List.mem_cons.mp hx with rfl | hxt
      · exact (strLe_iff a x).mp hab
      · exact le_trans ((strLe_iff a b).mp hab) (hb x hxt)
    · rw [if_neg hab]
      refine List.sorted_cons.mpr ⟨?_, ih ht⟩
      intro x hx
      rcases (mem_insertKey x a t).mp hx with rfl | hxt
      · exact le_of_not_le fun hle => hab ((strLe_iff x b).mpr hle)
      · exact hb x hxt

theorem sortKeys_perm (l : List String) : List.Perm (sortKeys l) l := by
  induction l with
  | nil => exact List.Perm.refl _
  | cons a t ih =>
    rw [sortKeys]
    exact (insertKey_perm a (sortKeys t)).trans (ih.cons a)

theorem mem_sortKeys (x : String) (l : List String) : x ∈ sortKeys l ↔ x ∈ l :=
  (sortKeys_perm l).mem_iff

theorem sorted_sortKeys (l : List String) : List.Sorted (· ≤ ·) (sortKeys l) := by
  induction l with
  | nil => simp [sortKeys]
  | cons a t ih => exact sorted_insertKey a (sortKeys t) ih

theorem nodup_sortKeys (l : List String) (h : l.Nodup) : (sortKeys l).Nodup :=
  ((sortKeys_perm l).nodup_iff).mpr h

theorem sortedLt_sortKeys (l : List String) (h : l.Nodup) :
    List.Sorted (· < ·) (sortKeys l) := by
  have hs := sorted_sortKeys l
  have hn := nodup_sortKeys l h
  exact (hs.and hn).imp fun hab => lt_of_le_of_ne hab.1 hab.2

/-! Association-list (Python dict) lemmas. -/

theorem lookup_mem {α : Type _} : ∀ (m : List (String × α)) {k : String} {v : α},
    m.lookup k = some v → (k, v) ∈ m
  | [], _, _, h => by simp [List.lookup] at h
  | (k1, v1) :: t, k, v, h => by
    by_cases hk : k = k1
    · subst hk
      simp [List.lookup] at h
      subst h
      exact List.mem_cons_self _ _
    · simp [List.lookup, beq_eq_false_iff_ne.mpr hk] at h
      exact List.mem_cons_of_mem _ (lookup_mem t h)

theorem mem_keyList_lookup {α : Type _} : ∀ (m : List (String × α)) {k : String},
    k ∈ keyList m → ∃ v, m.lookup k = some v ∧ (k, v) ∈ m
  | [], k, h => by simp [keyList] at h
  | (k1, v1) :: t, k, h => by
    by_cases hk : k = k1
    · subst hk
      exact ⟨v1, by simp [List.lookup], List.mem_cons_self _ _⟩
    · have hmem : k ∈ keyList t := by
        rcases List.mem_cons.mp h with h' | h'
        · exact absurd h' hk
        · exact h'
      rcases mem_keyList_lookup t hmem with ⟨v, hv, hvm⟩
      exact ⟨v, by simp [List.lookup, beq_eq_false_iff_ne.mpr hk, hv], List.mem_cons_of_mem _ hvm⟩

theorem lookup_eq_of_mem_nodup {α : Type _} : ∀ (m : List (String × α)) {k : String} {v : α},
    (keyList m).Nodup → (k, v) ∈ m → m.lookup k = some v
  | [], _, _, _, hm => by simp at hm
  | (k1, v1) :: t, k, v, hn, hm => by
    have hn2 := List.nodup_cons.mp (show (k1 :: keyList t).Nodup from hn)
    rcases List.mem_cons.mp hm with h | h
    · rw [Prod.mk.injEq] at h
      rcases h with ⟨rfl, rfl⟩
      simp [List.lookup]
    · by_cases hk : k = k1
      · subst hk
        exact absurd (List.mem_map_of_mem Prod.fst h) hn2.1
      · simp only [List.lookup, beq_eq_false_iff_ne.mpr hk]
        exact lookup_eq_of_mem_nodup t hn2.2 h

theorem contains_iff (l : List String) (k : String) : l.contains k = true ↔ k ∈ l :=
  List.elem_iff

theorem keyList_mem_of_mem {α : Type _} {m : List (String × α)} {p : String × α}
    (h : p ∈ m) : p.1 ∈ keyList m :=
  List.mem_map_of_mem Prod.fst h

/-! Facts about `concatMap`, the rendering loop and `dictEq`. -/

theorem mem_concatMap {f : α → List β} : ∀ {l : List α} {b : β},
    b ∈ concatMap f l ↔ ∃ a ∈ l, b ∈ f a
  | [], b => by simp [concatMap]
  | a :: t, b => by
    simp only [concatMap, List.mem_append, @mem_concatMap _ _ f t]
    constructor
    · rintro (h | ⟨x, hx, hb⟩)
      · exact ⟨a, List.mem_cons_self _ _, h⟩
      · exact ⟨x, List.mem_cons_of_mem _ hx, hb⟩
    · rintro ⟨x, hx, hb⟩
      rcases List.mem_cons.mp hx with rfl | hx
      · exact Or.inl hb
      · exact Or.inr ⟨x, hx, hb⟩

theorem concatMap_append (f : α → List β) : ∀ l1 l2 : List α,
    concatMap f (l1 ++ l2) = concatMap f l1 ++ concatMap f l2
  | [], l2 => by simp [concatMap]
  | a :: t, l2 => by
    simp [concatMap, concatMap_append f t l2]

theorem reverse_concatMap (f : α → List β) : ∀ l : List α,
    (concatMap f l).reverse = concatMap (fun a => (f a).reverse) l.reverse
  | [] => by simp [concatMap]
  | a :: t => by
    simp [concatMap, concatMap_append, reverse_concatMap f t]

theorem pyEqV_refl (v : JValue) : pyEqV v v = true := by
  cases v <;> simp [pyEqV]

theorem dictEq_refl (d : ColDef) (h : (keyList d).Nodup) : dictEq d d = true := by
  rw [dictEq, Bool.and_self, List.all_eq_true]
  intro kv hkv
  rw [lookup_eq_of_mem_nodup d h (by simpa using hkv)]
  exact pyEqV_refl kv.2

theorem renderLoop_eq (dialect : String) (u d : Operation → List String) :
    ∀ (ops : List Operation) (up down : List String),
    (∀ op ∈ ops, emitUp dialect op = some (u op)) →
    (∀ op ∈ ops, emitDown dialect op = some (d op)) →
    renderLoop dialect ops up down = some (up ++ concatMap u ops, down ++ concatMap d ops)
  | [], up, down, _, _ => by simp [renderLoop, concatMap]
  | op :: rest, up, down, hu, hd => by
    rw [renderLoop, hu op (List.mem_cons_self _ _), hd op (List.mem_cons_self _ _)]
    simp only [Option.bind_eq_bind, Option.some_bind]
    rw [renderLoop_eq dialect u d rest (up ++ u op) (down ++ d op)
      (fun o ho => hu o (List.mem_cons_of_mem _ ho))
      (fun o ho => hd o (List.mem_cons_of_mem _ ho))]
    simp [concatMap, List.append_assoc]

theorem contains_false_iff (l : List String) (k : String) : l.contains k = false ↔ k ∉ l := by
  constructor
  · intro h hm
    rw [(contains_iff l k).mpr hm] at h
    exact Bool.noConfusion h
  · intro h
    cases hc : l.contains k with
    | false => rfl
    | true => exact absurd ((contains_iff l k).mp hc) h

/-- Well-formedness of a loaded schema: every dict key list is
duplicate-free (automatic for Python dicts, stated explicitly for the
association-list representation). -/
def wfSchema (s : Schema) : Prop :=
  (keyList s.tables).Nodup ∧
  ∀ td ∈ s.tables, (keyList td.2.columns).Nodup ∧
    ∀ cd ∈ td.2.columns, (keyList cd.2).Nodup

instance (s : Schema) : Decidable (wfSchema s) := by
  unfold wfSchema
  infer_instance

/-- Every column definition carries a `type` attribute (guaranteed by
the loader `load_schema` before the core ever runs). -/
def typedSchema (s : Schema) : Prop :=
  ∀ td ∈ s.tables, ∀ cd ∈ td.2.columns, (cd.2.lookup "type").isSome = true

instance (s : Schema) : Decidable (typedSchema s) := by
  unfold typedSchema
  infer_instance

theorem mem_tableBlock {op : Operation} {tb : String} {sc tc : ColsDict}
    (h : op ∈ tableBlock tb sc tc) :
    (∃ c, c ∈ keyList tc ∧ c ∉ keyList sc ∧
      op = ⟨"add_column", tb, some c, .colDef (getCol tc c), false⟩) ∨
    (∃ c, c ∈ keyList sc ∧ c ∉ keyList tc ∧
      op = ⟨"drop_column", tb, some c, .empty, true⟩) ∨
    (∃ c, c ∈ keyList sc ∧ c ∈ keyList tc ∧
      dictEq (getCol sc c) (getCol tc c) = false ∧
      op = ⟨"alter_column", tb, some c, .fromTo (getCol sc c) (getCol tc c),
        alterDestructive (getCol sc c) (getCol tc c)⟩) := by
  rw [tableBlock] at h
  rcases List.mem_append.mp h with hAB | hC
  · rcases List.mem_append.mp hAB with hA | hB
    · left
      rcases List.mem_map.mp hA with ⟨c, hc, rfl⟩
      rcases List.mem_filter.mp ((mem_sortKeys c _).mp hc) with ⟨hmem, hnc⟩
      have : (keyList sc).contains c = false := by
        cases hcc : (keyList sc).contains c with
        | false => rfl
        | true => rw [hcc] at hnc; exact Bool.noConfusion hnc
      exact ⟨c, hmem, (contains_false_iff _ _).mp this, rfl⟩
    · right; left
      rcases List.mem_map.mp hB with ⟨c, hc, rfl⟩
      rcases List.mem_filter.mp ((mem_sortKeys c _).mp hc) with ⟨hmem, hnc⟩
      have : (keyList tc).contains c = false := by
        cases hcc : (keyList tc).contains c with
        | false => rfl
        | true => rw [hcc] at hnc; exact Bool.noConfusion hnc
      exact ⟨c, hmem, (contains_false_iff _ _).mp this, rfl⟩
  · right; right
    rcases List.mem_filterMap.mp hC with ⟨c, hc, hsome⟩
    rcases List.mem_filter.mp ((mem_sortKeys c _).mp hc) with ⟨hmem, htc⟩
    cases hde : dictEq (getCol sc c) (getCol tc c) with
    | true => rw [hde] at hsome; simp at hsome
    | false =>
      rw [hde] at hsome
      rw [if_neg (by simp)] at hsome
      refine ⟨c, hmem, (contains_iff _ _).mp htc, hde, ?_⟩
      exact (Option.some.inj hsome).symm

theorem mem_diff_cases {op : Operation} {s t : Schema}
    (h : op ∈ diff_schemas s t) :
    (∃ tb, tb ∈ keyList t.tables ∧ tb ∉ keyList s.tables ∧
      op = ⟨"create_table", tb, none, .table (getTable t.tables tb), false⟩) ∨
    (∃ tb, tb ∈ keyList s.tables ∧ tb ∉ keyList t.tables ∧
      op = ⟨"drop_table", tb, none, .empty, true⟩) ∨
    (∃ tb, tb ∈ keyList s.tables ∧ tb ∈ keyList t.tables ∧
      op ∈ tableBlock tb (getTable s.tables tb).columns (getTable t.tables tb).columns) := by
  rw [diff_schemas] at h
  rcases List.mem_append.mp h with hAB | hC
  · rcases List.mem_append.mp hAB with hA | hB
    · left
      rcases List.mem_map.mp hA with ⟨tb, htb, rfl⟩
      rcases List.mem_filter.mp ((mem_sortKeys tb _).mp htb) with ⟨hmem, hnc⟩
      have : (keyList s.tables).contains tb = false := by
        cases hcc : (keyList s.tables).contains tb with
        | false => rfl
        | true => rw [hcc] at hnc; exact Bool.noConfusion hnc
      exact ⟨tb, hmem, (contains_false_iff _ _).mp this, rfl⟩
    · right; left
      rcases List.mem_map.mp hB with ⟨tb, htb, rfl⟩
      rcases List.mem_filter.mp ((mem_sortKeys tb _).mp htb) with ⟨hmem, hnc⟩
      have : (keyList t.tables).contains tb = false := by
        cases hcc : (keyList t.tables).contains tb with
        | false => rfl
        | true => rw [hcc] at hnc; exact Bool.noConfusion hnc
      exact ⟨tb, hmem, (contains_false_iff _ _).mp this, rfl⟩
  · right; right
    rcases mem_concatMap.mp hC with ⟨tb, htb, hop⟩
    rcases List.mem_filter.mp ((mem_sortKeys tb _).mp htb) with ⟨hmem, htc⟩
    exact ⟨tb, hmem, (contains_iff _ _).mp htc, hop⟩

/-! Destructive-flag facts (claims C5 and C10). -/

/-- Attribute typing as the spec's data model states it: `type` maps to
a string value, and `nullable`, when present, maps to a boolean. -/
def attrTypedB (cd : ColDef) : Bool :=
  (match cd.lookup "type" with
   | some (.str _) => true
   | _ => false) &&
  (match cd.lookup "nullable" with
   | some (.bool _) => true
   | some _ => false
   | none => true)

theorem alterDestructive_iff (f g : ColDef)
    (hf : attrTypedB f = true) (hg : attrTypedB g = true) :
    alterDestructive f g = true ↔
      (((f.lookup "nullable" = none ∨ f.lookup "nullable" = some (.bool true)) ∧
        g.lookup "nullable" = some (.bool false)) ∨
       (∃ a b, f.lookup "type" = some (.str a) ∧ g.lookup "type" = some (.str b) ∧ a ≠ b)) := by
  rw [attrTypedB, Bool.and_eq_true] at hf hg
  obtain ⟨hf1, hf2⟩ := hf
  obtain ⟨hg1, hg2⟩ := hg
  rcases hft : f.lookup "type" with _ | vf <;> rw [hft] at hf1
  · exact Bool.noConfusion hf1
  rcases vf with a | _ | _ | _ <;> try exact Bool.noConfusion hf1
  rcases hgt : g.lookup "type" with _ | vg <;> rw [hgt] at hg1
  · exact Bool.noConfusion hg1
  rcases vg with b | _ | _ | _ <;> try exact Bool.noConfusion hg1
  rcases hfn : f.lookup "nullable" with _ | vf2 <;> rw [hfn] at hf2
  case some =>
    rcases vf2 with _ | _ | bf | _ <;> try exact Bool.noConfusion hf2
    rcases hgn : g.lookup "nullable" with _ | vg2 <;> rw [hgn] at hg2
    case some =>
      rcases vg2 with _ | _ | bg | _ <;> try exact Bool.noConfusion hg2
      cases bf <;> cases bg <;>
        (simp only [alterDestructive, hft, hgt, hfn, hgn];
         simp [truthy, isFalseO, pyEqO, pyEqV, Bool.not_eq_true', beq_eq_false_iff_ne])
    case none =>
      cases bf <;>
        (simp only [alterDestructive, hft, hgt, hfn, hgn];
         simp [truthy, isFalseO, pyEqO, pyEqV, Bool.not_eq_true', beq_eq_false_iff_ne])
  case none =>
    rcases hgn : g.lookup "nullable" with _ | vg2 <;> rw [hgn] at hg2
    case some =>
      rcases vg2 with _ | _ | bg | _ <;> try exact Bool.noConfusion hg2
      cases bg <;>
        (simp only [alterDestructive, hft, hgt, hfn, hgn];
         simp [truthy, isFalseO, pyEqO, pyEqV, Bool.not_eq_true', beq_eq_false_iff_ne])
    case none =>
      (simp only [alterDestructive, hft, hgt, hfn, hgn];
       simp [truthy, isFalseO, pyEqO, pyEqV, Bool.not_eq_true', beq_eq_false_iff_ne])

theorem getTable_cases (m : List (String × TableDef)) (k : String) :
    (k, getTable m k) ∈ m ∨ getTable m k = ⟨[]⟩ := by
  rw [getTable]
  cases h : m.lookup k with
  | none => right; rfl
  | some td => left; simpa using lookup_mem m h

theorem cols_attrTyped {s : Schema}
    (hs : ∀ td ∈ s.tables, ∀ cd ∈ td.2.columns, attrTypedB cd.2 = true)
    {tb c : String} (hc : c ∈ keyList (getTable s.tables tb).columns) :
    attrTypedB (getCol (getTable s.tables tb).columns c) = true := by
  rcases getTable_cases s.tables tb with hm | hd
  · rcases mem_keyList_lookup _ hc with ⟨v, hv, hvm⟩
    rw [getCol, hv, Option.getD_some]
    exact hs (tb, getTable s.tables tb) hm (c, v) hvm
  · rw [hd] at hc
    simp [keyList] at hc

/-- Claim C5: an `alter_column` produced by the diff is destructive
exactly when the nullability tightens from nullable-or-unspecified to
explicitly non-nullable, or the `type` strings differ (in either
direction); `drop_table` and `drop_column` operations are always
destructive. -/
theorem diff_alter_destructive (s t : Schema) (op : Operation)
    (hs : ∀ td ∈ s.tables, ∀ cd ∈ td.2.columns, attrTypedB cd.2 = true)
    (ht : ∀ td ∈ t.tables, ∀ cd ∈ td.2.columns, attrTypedB cd.2 = true)
    (h : op ∈ diff_schemas s t) :
    (op.op_type = "alter_column" →
      ∃ f g, op.payload = .fromTo f g ∧
        (op.destructive = true ↔
          (((f.lookup "nullable" = none ∨ f.lookup "nullable" = some (.bool true)) ∧
            g.lookup "nullable" = some (.bool false)) ∨
          (∃ a b, f.lookup "type" = some (.str a) ∧ g.lookup "type" = some (.str b) ∧ a ≠ b)))) ∧
    ((op.op_type = "drop_table" ∨ op.op_type = "drop_column") → op.destructive = true) := by
  rcases mem_diff_cases h with ⟨tb, _, _, rfl⟩ | ⟨tb, _, _, rfl⟩ | ⟨tb, _, _, hblk⟩
  · exact ⟨fun hk => absurd hk (by simp),
      fun hk => by rcases hk with hk | hk <;> exact absurd hk (by simp)⟩
  · exact ⟨fun hk => absurd hk (by simp), fun _ => rfl⟩
  · rcases mem_tableBlock hblk with ⟨c, _, _, rfl⟩ | ⟨c, _, _, rfl⟩ | ⟨c, hcs, hct, _, rfl⟩
    · exact ⟨fun hk => absurd hk (by simp),
        fun hk => by rcases hk with hk | hk <;> exact absurd hk (by simp)⟩
    · exact ⟨fun hk => absurd hk (by simp), fun _ => rfl⟩
    · refine ⟨fun _ => ⟨_, _, rfl, ?_⟩, fun hk => by rcases hk with hk | hk <;> exact absurd hk (by simp)⟩
      exact alterDestructive_iff _ _ (cols_attrTyped hs hcs) (cols_attrTyped ht hct)

/-- Concrete schemas for the witness theorems: the diff produces one
operation of each of the five kinds. -/
def wSource : Schema := ⟨[
  ("legacy", ⟨[("id", [("type", .str "INTEGER")])]⟩),
  ("users", ⟨[
    ("email", [("type", .str "TEXT")]),
    ("id", [("type", .str "INTEGER"), ("primary_key", .bool true)]),
    ("old", [("type", .str "TEXT")])]⟩)]⟩

/-- Target side of the witness schemas. -/
def wTarget : Schema := ⟨[
  ("posts", ⟨[("id", [("type", .str "INTEGER")])]⟩),
  ("users", ⟨[
    ("email", [("type", .str "TEXT"), ("nullable", .bool false)]),
    ("id", [("type", .str "INTEGER"), ("primary_key", .bool true)]),
    ("name", [("type", .str "TEXT")])]⟩)]⟩

/-- The `alter_column` operation the witness diff produces. -/
def opAlterW : Operation :=
  ⟨"alter_column", "users", some "email",
    .fromTo [("type", .str "TEXT")] [("type", .str "TEXT"), ("nullable", .bool false)], true⟩

theorem diff_alter_destructive_witness :
    (opAlterW.op_type = "alter_column" →
      ∃ f g, opAlterW.payload = .fromTo f g ∧
        (opAlterW.destructive = true ↔
          (((f.lookup "nullable" = none ∨ f.lookup "nullable" = some (.bool true)) ∧
            g.lookup "nullable" = some (.bool false)) ∨
          (∃ a b, f.lookup "type" = some (.str a) ∧ g.lookup "type" = some (.str b) ∧ a ≠ b)))) ∧
    ((opAlterW.op_type = "drop_table" ∨ opAlterW.op_type = "drop_column") →
      opAlterW.destructive = true) :=
  diff_alter_destructive wSource wTarget opAlterW (by decide) (by decide) (by decide)

/-- Claim C10: `create_table` and `add_column` operations in a diff are
never destructive; a destructive operation is a `drop_table`, a
`drop_column`, or an `alter_column` whose payload meets the code's
classification. -/
theorem diff_destructive_invariant (s t : Schema) (op : Operation)
    (h : op ∈ diff_schemas s t) :
    ((op.op_type = "create_table" ∨ op.op_type = "add_column") → op.destructive = false) ∧
    (op.destructive = true →
      op.op_type = "drop_table" ∨ op.op_type = "drop_column" ∨
        (op.op_type = "alter_column" ∧ ∃ f g, op.payload = .fromTo f g ∧
          alterDestructive f g = true)) := by
  rcases mem_diff_cases h with ⟨tb, _, _, rfl⟩ | ⟨tb, _, _, rfl⟩ | ⟨tb, _, _, hblk⟩
  · exact ⟨fun _ => rfl, fun hd => Bool.noConfusion hd⟩
  · exact ⟨fun hk => by rcases hk with hk | hk <;> exact absurd hk (by simp), fun _ => Or.inl rfl⟩
  · rcases mem_tableBlock hblk with ⟨c, _, _, rfl⟩ | ⟨c, _, _, rfl⟩ | ⟨c, _, _, _, rfl⟩
    · exact ⟨fun _ => rfl, fun hd => Bool.noConfusion hd⟩
    · exact ⟨fun hk => by rcases hk with hk | hk <;> exact absurd hk (by simp),
        fun _ => Or.inr (Or.inl rfl)⟩
    · exact ⟨fun hk => by rcases hk with hk | hk <;> exact absurd hk (by simp),
        fun hd => Or.inr (Or.inr ⟨rfl, _, _, rfl, hd⟩)⟩

/-- The `drop_table` operation the witness diff produces. -/
def opDropW : Operation := ⟨"drop_table", "legacy", none, .empty, true⟩

theorem diff_destructive_invariant_witness :
    ((opDropW.op_type = "create_table" ∨ opDropW.op_type = "add_column") →
      opDropW.destructive = false) ∧
    (opDropW.destructive = true →
      opDropW.op_type = "drop_table" ∨ opDropW.op_type = "drop_column" ∨
        (opDropW.op_type = "alter_column" ∧ ∃ f g, opDropW.payload = .fromTo f g ∧
          alterDestructive f g = true)) :=
  diff_destructive_invariant wSource wTarget opDropW (by decide)

/-! Symmetry of table creation/removal (claim C4). -/

theorem tableBlock_kinds {op : Operation} {tb : String} {sc tc : ColsDict}
    (h : op ∈ tableBlock tb sc tc) :
    op.op_type = "add_column" ∨ op.op_type = "drop_column" ∨ op.op_type = "alter_column" := by
  rcases mem_tableBlock h with ⟨c, _, _, rfl⟩ | ⟨c, _, _, rfl⟩ | ⟨c, _, _, _, rfl⟩
  · exact Or.inl rfl
  · exact Or.inr (Or.inl rfl)
  · exact Or.inr (Or.inr rfl)

theorem diff_filter_create (s t : Schema) :
    (((diff_schemas s t).filter fun op => op.op_type == "create_table").map fun op => op.table)
      = newTables s.tables t.tables := by
  rw [diff_schemas, List.filter_append, List.filter_append]
  have hA : (List.filter (fun op => op.op_type == "create_table")
      ((newTables s.tables t.tables).map
        fun tb => (⟨"create_table", tb, none, .table (getTable t.tables tb), false⟩ : Operation)))
      = (newTables s.tables t.tables).map
        fun tb => (⟨"create_table", tb, none, .table (getTable t.tables tb), false⟩ : Operation) := by
    rw [List.filter_eq_self]
    intro op hop
    rcases List.mem_map.mp hop with ⟨tb, _, rfl⟩
    simp
  have hB : (List.filter (fun op => op.op_type == "create_table")
      ((removedTables s.tables t.tables).map
        fun tb => (⟨"drop_table", tb, none, .empty, true⟩ : Operation))) = [] := by
    rw [List.filter_eq_nil_iff]
    intro op hop
    rcases List.mem_map.mp hop with ⟨tb, _, rfl⟩
    simp
  have hC : (List.filter (fun op => op.op_type == "create_table")
      (concatMap
        (fun tb => tableBlock tb (getTable s.tables tb).columns (getTable t.tables tb).columns)
        (commonTables s.tables t.tables))) = [] := by
    rw [List.filter_eq_nil_iff]
    intro op hop
    rcases mem_concatMap.mp hop with ⟨tb, _, hblk⟩
    rcases tableBlock_kinds hblk with hk | hk | hk <;> simp [hk]
  rw [hA, hB, hC]
  simp only [List.append_nil, List.nil_append]
  rw [List.map_map]
  exact List.map_id _

theorem diff_filter_dropTable (s t : Schema) :
    (((diff_schemas s t).filter fun op => op.op_type == "drop_table").map fun op => op.table)
      = removedTables s.tables t.tables := by
  rw [diff_schemas, List.filter_append, List.filter_append]
  have hA : (List.filter (fun op => op.op_type == "drop_table")
      ((newTables s.tables t.tables).map
        fun tb => (⟨"create_table", tb, none, .table (getTable t.tables tb), false⟩ : Operation))) = [] := by
    rw [List.filter_eq_nil_iff]
    intro op hop
    rcases List.mem_map.mp hop with ⟨tb, _, rfl⟩
    simp
  have hB : (List.filter (fun op => op.op_type == "drop_table")
      ((removedTables s.tables t.tables).map
        fun tb => (⟨"drop_table", tb, none, .empty, true⟩ : Operation)))
      = (removedTables s.tables t.tables).map
        fun tb => (⟨"drop_table", tb, none, .empty, true⟩ : Operation) := by
    rw [List.filter_eq_self]
    intro op hop
    rcases List.mem_map.mp hop with ⟨tb, _, rfl⟩
    simp
  have hC : (List.filter (fun op => op.op_type == "drop_table")
      (concatMap
        (fun tb => tableBlock tb (getTable s.tables tb).columns (getTable t.tables tb).columns)
        (commonTables s.tables t.tables))) = [] := by
    rw [List.filter_eq_nil_iff]
    intro op hop
    rcases mem_concatMap.mp hop with ⟨tb, _, hblk⟩
    rcases tableBlock_kinds hblk with hk | hk | hk <;> simp [hk]
  rw [hA, hB, hC]
  simp only [List.append_nil, List.nil_append]
  rw [List.map_map]
  exact List.map_id _

/-- Claim C4: the table names of the `create_table` operations of
`diff(A, B)` are exactly the table names of the `drop_table` operations
of `diff(B, A)` (even as equal sorted lists, hence as equal sets), and
vice versa. -/
theorem diff_create_drop_symmetry (A B : Schema) :
    ((((diff_schemas A B).filter fun op => op.op_type == "create_table").map fun op => op.table)
      = (((diff_schemas B A).filter fun op => op.op_type == "drop_table").map fun op => op.table)) ∧
    ((((diff_schemas A B).filter fun op => op.op_type == "drop_table").map fun op => op.table)
      = (((diff_schemas B A).filter fun op => op.op_type == "create_table").map fun op => op.table)) := by
  constructor
  · rw [diff_filter_create, diff_filter_dropTable]
    rfl
  · rw [diff_filter_dropTable, diff_filter_create]
    rfl

/-! Idempotence of the diff (claim C3). -/

theorem filter_not_contains_self (l : List String) :
    (l.filter fun k => !(l.contains k)) = [] := by
  rw [List.filter_eq_nil_iff]
  intro a ha
  rw [(contains_iff l a).mpr ha]
  simp

theorem filter_contains_self (l : List String) :
    (l.filter fun k => l.contains k) = l := by
  rw [List.filter_eq_self]
  intro a ha
  exact (contains_iff l a).mpr ha

theorem concatMap_eq_nil {f : α → List β} {l : List α}
    (h : ∀ a ∈ l, f a = []) : concatMap f l = [] := by
  induction l with
  | nil => rfl
  | cons a t ih =>
    rw [concatMap, h a (List.mem_cons_self _ _), ih fun x hx => h x (List.mem_cons_of_mem _ hx)]
    rfl

theorem tableBlock_self_empty (tb : String) (cols : ColsDict)
    (h : ∀ cd ∈ cols, (keyList cd.2).Nodup) : tableBlock tb cols cols = [] := by
  rw [tableBlock, filter_not_contains_self, filter_contains_self]
  rw [show sortKeys [] = [] from rfl, List.map_nil]
  rw [List.filterMap_eq_nil_iff.mpr ?_]
  · rfl
  · intro c hc
    rcases mem_keyList_lookup cols ((mem_sortKeys c _).mp hc) with ⟨v, hv, hvm⟩
    rw [getCol, hv, Option.getD_some, if_pos (dictEq_refl v (h (c, v) hvm))]

/-- Claim C3: diffing a well-formed schema against itself yields the
empty operation list, and a table present on both sides with equal
column definitions contributes an empty per-table block. -/
theorem diff_self_empty (A : Schema) (h : wfSchema A) :
    diff_schemas A A = [] ∧
    ∀ tb cols, (∀ cd ∈ cols, (keyList cd.2).Nodup) → tableBlock tb cols cols = [] := by
  refine ⟨?_, fun tb cols hc => tableBlock_self_empty tb cols hc⟩
  rw [diff_schemas, newTables, removedTables, commonTables,
    filter_not_contains_self, filter_contains_self]
  rw [show sortKeys [] = [] from rfl, List.map_nil]
  rw [concatMap_eq_nil ?_]
  · rfl
  · intro tb htb
    apply tableBlock_self_empty
    intro cd hcd
    rcases getTable_cases A.tables tb with hm | hd
    · exact ((h.2 (tb, getTable A.tables tb) hm).2) cd hcd
    · rw [hd] at hcd
      simp at hcd

theorem diff_self_empty_witness :
    diff_schemas wSource wSource = [] ∧
    ∀ tb cols, (∀ cd ∈ cols, (keyList cd.2).Nodup) → tableBlock tb cols cols = [] :=
  diff_self_empty wSource (by decide)

/-- Claim C7: for a `drop_column` or `alter_column` operation the
SQLite emitters, in both directions, return one single statement that
is a SQL comment (it begins with `--`), never a literal `ALTER` or
`DROP` statement. -/
theorem sqlite_drop_alter_comment (op : Operation)
    (h : op.op_type = "drop_column" ∨ op.op_type = "alter_column") :
    (∃ s1, sqlite_up_sql op = some [s1] ∧ pyStartsWith s1 "--" = true ∧
      pyStartsWith s1 "ALTER" = false ∧ pyStartsWith s1 "DROP" = false) ∧
    (∃ s2, sqlite_down_sql op = some [s2] ∧ pyStartsWith s2 "--" = true ∧
      pyStartsWith s2 "ALTER" = false ∧ pyStartsWith s2 "DROP" = false) := by
  have hu : sqlite_up_sql op = some ["-- manual action required in sqlite: " ++ op.op_type
      ++ " on " ++ quoteIdent (op.table ++ "." ++ pyStrOptS op.column)] := by
    rcases h with h | h <;> simp [sqlite_up_sql, h]
  have hd : sqlite_down_sql op = some ["-- manual rollback required in sqlite: " ++ op.op_type
      ++ " on " ++ quoteIdent (op.table ++ "." ++ pyStrOptS op.column)] := by
    rcases h with h | h <;> simp [sqlite_down_sql, h]
  exact ⟨⟨_, hu, rfl, rfl, rfl⟩, ⟨_, hd, rfl, rfl, rfl⟩⟩

theorem sqlite_drop_alter_comment_witness :
    (∃ s1, sqlite_up_sql opAlterW = some [s1] ∧ pyStartsWith s1 "--" = true ∧
      pyStartsWith s1 "ALTER" = false ∧ pyStartsWith s1 "DROP" = false) ∧
    (∃ s2, sqlite_down_sql opAlterW = some [s2] ∧ pyStartsWith s2 "--" = true ∧
      pyStartsWith s2 "ALTER" = false ∧ pyStartsWith s2 "DROP" = false) :=
  sqlite_drop_alter_comment opAlterW (Or.inr rfl)

/-! The column fragment renderer (claim C6). -/

theorem isFalseO_iff (o : Option JValue) : isFalseO o = true ↔ o = some (.bool false) := by
  cases o with
  | none => simp [isFalseO]
  | some v =>
    cases v with
    | bool b => cases b <;> simp [isFalseO]
    | str s => simp [isFalseO]
    | num n => simp [isFalseO]
    | null => simp [isFalseO]

/-- Claim C6: `column_sql` builds the fragment as quoted name, type,
`PRIMARY KEY` when the flag is truthy, `NOT NULL` when `nullable` is
explicitly false, `DEFAULT <value>` when a non-null default is present,
and `AUTOINCREMENT` exactly when the dialect is `sqlite` and the flag is
truthy; a string default not beginning case-insensitively with
`CURRENT_` is single-quoted, every other non-null default is emitted as
`str()` of the value. -/
theorem column_sql_spec (n : String) (cd : ColDef) (dialect : String) (ty : JValue)
    (hty : cd.lookup "type" = some ty) :
    (column_sql n cd dialect = some (joinSep " "
      ([quoteIdent n, pyStr ty]
        ++ (if truthyO (cd.lookup "primary_key") = true then ["PRIMARY KEY"] else [])
        ++ (if cd.lookup "nullable" = some (.bool false) then ["NOT NULL"] else [])
        ++ (match cd.lookup "default" with
            | some v => if v = JValue.null then [] else ["DEFAULT " ++ defaultSql v]
            | none => [])
        ++ (if dialect = "sqlite" ∧ truthyO (cd.lookup "autoincrement") = true
            then ["AUTOINCREMENT"] else [])))) ∧
    (∀ s, pyStartsWith (pyUpper s) "CURRENT_" = false → defaultSql (.str s) = "'" ++ s ++ "'") ∧
    (∀ s, pyStartsWith (pyUpper s) "CURRENT_" = true → defaultSql (.str s) = s) ∧
    (∀ v : JValue, (∀ s, v ≠ .str s) → defaultSql v = pyStr v) := by
  have h1 : (if cd.lookup "nullable" = some (.bool false) then ["NOT NULL"] else ([] : List String))
      = (if isFalseO (cd.lookup "nullable") = true then ["NOT NULL"] else []) := by
    by_cases hn : cd.lookup "nullable" = some (.bool false)
    · rw [if_pos hn, if_pos ((isFalseO_iff _).mpr hn)]
    · rw [if_neg hn, if_neg fun hc => hn ((isFalseO_iff _).mp hc)]
  have h2 : (match cd.lookup "default" with
      | some v => if v = JValue.null then [] else ["DEFAULT " ++ defaultSql v]
      | none => ([] : List String))
      = (match cd.lookup "default" with
      | some v => if v == JValue.null then [] else ["DEFAULT " ++ defaultSql v]
      | none => []) := by
    cases cd.lookup "default" with
    | none => rfl
    | some v => simp
  have h3 : (if dialect = "sqlite" ∧ truthyO (cd.lookup "autoincrement") = true
      then ["AUTOINCREMENT"] else ([] : List String))
      = (if (dialect == "sqlite" && truthyO (cd.lookup "autoincrement")) = true
      then ["AUTOINCREMENT"] else []) := by
    by_cases ha : dialect = "sqlite" ∧ truthyO (cd.lookup "autoincrement") = true
    · rw [if_pos ha, if_pos (by rw [Bool.and_eq_true, beq_iff_eq]; exact ha)]
    · rw [if_neg ha, if_neg fun hc => ha (by rw [Bool.and_eq_true, beq_iff_eq] at hc; exact hc)]
  refine ⟨?_, ?_, ?_, ?_⟩
  · rw [h1, h2, h3, column_sql, hty]
    rfl
  · intro s h
    simp [defaultSql, h]
  · intro s h
    simp [defaultSql, h]
  · intro v hv
    cases v with
    | str s => exact absurd rfl (hv s)
    | num n => rfl
    | bool b => rfl
    | null => rfl

/-- Column definition used by the C6 witness. -/
def cdW : ColDef := [("type", .str "INTEGER")]

theorem column_sql_spec_witness :
    (column_sql "id" cdW "postgres" = some (joinSep " "
      ([quoteIdent "id", pyStr (.str "INTEGER")]
        ++ (if truthyO (cdW.lookup "primary_key") = true then ["PRIMARY KEY"] else [])
        ++ (if cdW.lookup "nullable" = some (.bool false) then ["NOT NULL"] else [])
        ++ (match cdW.lookup "default" with
            | some v => if v = JValue.null then [] else ["DEFAULT " ++ defaultSql v]
            | none => [])
        ++ (if "postgres" = "sqlite" ∧ truthyO (cdW.lookup "autoincrement") = true
            then ["AUTOINCREMENT"] else [])))) ∧
    (∀ s, pyStartsWith (pyUpper s) "CURRENT_" = false → defaultSql (.str s) = "'" ++ s ++ "'") ∧
    (∀ s, pyStartsWith (pyUpper s) "CURRENT_" = true → defaultSql (.str s) = s) ∧
    (∀ v : JValue, (∀ s, v ≠ .str s) → defaultSql v = pyStr v) :=
  column_sql_spec "id" cdW "postgres" (.str "INTEGER") rfl

/-! The dry-run summary (claim C9). -/

theorem bumpCount_lookup_same : ∀ (m : List (String × Nat)) (k : String),
    (bumpCount m k).lookup k = some (countNat m k + 1)
  | [], k => by simp [bumpCount, List.lookup, countNat]
  | (k2, n) :: t, k => by
    by_cases hk : k2 = k
    · subst hk
      simp [bumpCount, List.lookup, countNat]
    · have h1 : (k2 == k) = false := beq_eq_false_iff_ne.mpr hk
      have h2 : (k == k2) = false := beq_eq_false_iff_ne.mpr fun h => hk h.symm
      rw [bumpCount, if_neg (by simp [h1])]
      simp [List.lookup, h2, bumpCount_lookup_same t k, countNat]

theorem bumpCount_lookup_ne : ∀ (m : List (String × Nat)) (k k' : String), k' ≠ k →
    (bumpCount m k).lookup k' = m.lookup k'
  | [], k, k', h => by
    simp [bumpCount, List.lookup, beq_eq_false_iff_ne.mpr h]
  | (k2, n) :: t, k, k', h => by
    by_cases hk : k2 = k
    · subst hk
      rw [bumpCount, if_pos (by simp)]
      by_cases hk' : k' = k2
      · subst hk'; exact absurd rfl h
      · simp [List.lookup, beq_eq_false_iff_ne.mpr hk']
    · rw [bumpCount, if_neg (by simp [beq_eq_false_iff_ne.mpr hk])]
      by_cases hk' : k' = k2
      · subst hk'; simp [List.lookup]
      · simp [List.lookup, beq_eq_false_iff_ne.mpr hk', bumpCount_lookup_ne t k k' h]

theorem mem_keyList_bumpCount : ∀ (m : List (String × Nat)) (k x : String),
    x ∈ keyList (bumpCount m k) ↔ x ∈ keyList m ∨ x = k
  | [], k, x => by simp [bumpCount, keyList]
  | (k2, n) :: t, k, x => by
    by_cases hk : k2 = k
    · subst hk
      rw [bumpCount, if_pos (by simp)]
      constructor
      · intro hx; exact Or.inl hx
      · rintro (hx | rfl)
        · exact hx
        · exact List.mem_cons_self _ _
    · rw [bumpCount, if_neg (by simp [beq_eq_false_iff_ne.mpr hk])]
      have : keyList ((k2, n) :: bumpCount t k) = k2 :: keyList (bumpCount t k) := rfl
      rw [this]
      rw [show keyList ((k2, n) :: t) = k2 :: keyList t from rfl]
      simp only [List.mem_cons, mem_keyList_bumpCount t k x]
      tauto

theorem nodup_keyList_bumpCount : ∀ (m : List (String × Nat)) (k : String),
    (keyList m).Nodup → (keyList (bumpCount m k)).Nodup
  | [], k, _ => by simp [bumpCount, keyList]
  | (k2, n) :: t, k, h => by
    have h2 := List.nodup_cons.mp (show (k2 :: keyList t).Nodup from h)
    by_cases hk : k2 = k
    · subst hk
      rw [bumpCount, if_pos (by simp)]
      exact h
    · rw [bumpCount, if_neg (by simp [beq_eq_false_iff_ne.mpr hk])]
      rw [show keyList ((k2, n) :: bumpCount t k) = k2 :: keyList (bumpCount t k) from rfl]
      refine List.nodup_cons.mpr ⟨?_, nodup_keyList_bumpCount t k h2.2⟩
      intro hmem
      rcases (mem_keyList_bumpCount t k k2).mp hmem with hx | hx
      · exact h2.1 hx
      · exact hk hx

theorem tally_countNat : ∀ (ops : List Operation) (m : List (String × Nat)) (k : String),
    countNat (tally m ops) k = countNat m k + ops.countP (fun op => op.op_type == k)
  | [], m, k => by simp [tally, List.countP_nil]
  | op :: rest, m, k => by
    rw [tally, tally_countNat rest (bumpCount m op.op_type) k, List.countP_cons]
    by_cases hk : op.op_type = k
    · have hbc : countNat (bumpCount m op.op_type) k = countNat m k + 1 := by
        rw [hk, countNat, bumpCount_lookup_same, Option.getD_some]
      rw [hbc]
      simp [hk]
      omega
    · have : countNat (bumpCount m op.op_type) k = countNat m k := by
        rw [countNat, bumpCount_lookup_ne m op.op_type k (fun h => hk h.symm), countNat]
      rw [this]
      simp [beq_eq_false_iff_ne.mpr hk]

theorem mem_tally : ∀ (ops : List Operation) (m : List (String × Nat)) (x : String),
    x ∈ keyList (tally m ops) ↔ x ∈ keyList m ∨ x ∈ ops.map (fun op => op.op_type)
  | [], m, x => by simp [tally]
  | op :: rest, m, x => by
    rw [tally, mem_tally rest (bumpCount m op.op_type) x]
    rw [mem_keyList_bumpCount m op.op_type x]
    simp only [List.map_cons, List.mem_cons]
    tauto

theorem nodup_tally : ∀ (ops : List Operation) (m : List (String × Nat)),
    (keyList m).Nodup → (keyList (tally m ops)).Nodup
  | [], _, h => h
  | op :: rest, m, h =>
    nodup_tally rest (bumpCount m op.op_type) (nodup_keyList_bumpCount m op.op_type h)

theorem dry_run_summary_eq_spec (ops : List Operation) :
    dry_run_summary ops = dry_run_summary_spec ops := by
  have h1 : (keyList (tally [] ops)).Nodup := nodup_tally ops [] (by simp [keyList])
  have h2 : ((ops.map fun op => op.op_type).dedup).Nodup := List.nodup_dedup _
  have hmem : ∀ x, x ∈ keyList (tally [] ops) ↔ x ∈ (ops.map fun op => op.op_type).dedup := by
    intro x
    rw [mem_tally, List.mem_dedup]
    simp [keyList, tally]
  have hkeys : sortKeys (keyList (tally [] ops))
      = sortKeys ((ops.map fun op => op.op_type).dedup) := by
    refine List.eq_of_perm_of_sorted ?_ (sorted_sortKeys _) (sorted_sortKeys _)
    exact ((sortKeys_perm _).trans ((List.perm_ext_iff_of_nodup h1 h2).mpr hmem)).trans
      (sortKeys_perm _).symm
  have hfun : (fun k => "  " ++ k ++ ": " ++ toString (countNat (tally [] ops) k))
      = fun k => "  " ++ k ++ ": " ++ toString (ops.countP fun op => op.op_type == k) := by
    funext k
    rw [tally_countNat ops [] k]
    simp [countNat, List.lookup]
  rw [dry_run_summary, dry_run_summary_spec]
  rw [hkeys, hfun]

/-- Claim C9: the dry-run summary reports the total operation count,
one per-kind count line in sorted kind order, and the destructive-flag
count; it never renders SQL and is independent of the dialect — its
output is determined by the `(op_type, destructive)` projections alone. -/
theorem dry_run_summary_correct (ops : List Operation) :
    dry_run_summary ops = dry_run_summary_spec ops ∧
    ∀ ops2 : List Operation,
      ops.map (fun op => (op.op_type, op.destructive))
        = ops2.map (fun op => (op.op_type, op.destructive)) →
      dry_run_summary ops = dry_run_summary ops2 := by
  refine ⟨dry_run_summary_eq_spec ops, ?_⟩
  intro ops2 h
  have hlen : ops.length = ops2.length := by
    have := congrArg List.length h
    simpa using this
  have hmapt : (ops.map fun op => op.op_type) = ops2.map fun op => op.op_type := by
    have := congrArg (List.map Prod.fst) h
    simpa [List.map_map, Function.comp] using this
  have hcount : ∀ k : String, (ops.countP fun op => op.op_type == k)
      = ops2.countP fun op => op.op_type == k := by
    intro k
    have := congrArg (List.countP fun pr => pr.1 == k) h
    simpa [List.countP_map, Function.comp] using this
  have hdest : (ops.countP fun op => op.destructive) = ops2.countP fun op => op.destructive := by
    have := congrArg (List.countP fun pr => pr.2) h
    simpa [List.countP_map, Function.comp] using this
  have hfun2 : (fun k => "  " ++ k ++ ": " ++ toString (ops.countP fun op => op.op_type == k))
      = fun k => "  " ++ k ++ ": " ++ toString (ops2.countP fun op => op.op_type == k) := by
    funext k
    rw [hcount k]
  rw [dry_run_summary_eq_spec ops, dry_run_summary_eq_spec ops2,
    dry_run_summary_spec, dry_run_summary_spec, hlen, hmapt, hdest, hfun2]

/-! Ordering contract of the diff (claim C2). -/

theorem getTable_cols_nodup {s : Schema} (h : wfSchema s) (tb : String) :
    (keyList (getTable s.tables tb).columns).Nodup := by
  rcases getTable_cases s.tables tb with hm | hd
  · exact (h.2 _ hm).1
  · rw [hd]
    simp [keyList]

theorem alters_colNames (table : String) (sc tc : ColsDict) (names : List String) :
    ((names.filterMap fun c =>
        if dictEq (getCol sc c) (getCol tc c) then none
        else some (⟨"alter_column", table, some c, .fromTo (getCol sc c) (getCol tc c),
          alterDestructive (getCol sc c) (getCol tc c)⟩ : Operation)).map
      fun op => (op.column).getD "")
    = names.filter fun c => !(dictEq (getCol sc c) (getCol tc c)) := by
  induction names with
  | nil => rfl
  | cons c rest ih =>
    by_cases h : dictEq (getCol sc c) (getCol tc c) = true
    · simp [List.filterMap_cons, List.filter_cons, h, ih]
    · simp [List.filterMap_cons, List.filter_cons, h, ih]

/-- Claim C2: the diff output is the concatenation of all
`create_table` operations in sorted table order, all `drop_table`
operations in sorted table order, and one block per common table in
sorted table order, each block being `add_column`, then `drop_column`,
then `alter_column` operations in sorted column order. -/
theorem diff_schemas_ordering (s t : Schema) (hs : wfSchema s) (ht : wfSchema t) :
    (diff_schemas s t
      = ((newTables s.tables t.tables).map
          fun tb => ⟨"create_table", tb, none, .table (getTable t.tables tb), false⟩)
        ++ ((removedTables s.tables t.tables).map
          fun tb => ⟨"drop_table", tb, none, .empty, true⟩)
        ++ concatMap
          (fun tb => tableBlock tb (getTable s.tables tb).columns (getTable t.tables tb).columns)
          (commonTables s.tables t.tables)) ∧
    List.Sorted (· < ·) (newTables s.tables t.tables) ∧
    List.Sorted (· < ·) (removedTables s.tables t.tables) ∧
    List.Sorted (· < ·) (commonTables s.tables t.tables) ∧
    ∀ tb ∈ commonTables s.tables t.tables,
      ∃ adds drops alters : List Operation,
        tableBlock tb (getTable s.tables tb).columns (getTable t.tables tb).columns
          = adds ++ drops ++ alters ∧
        (∀ op ∈ adds, op.op_type = "add_column") ∧
        (∀ op ∈ drops, op.op_type = "drop_column") ∧
        (∀ op ∈ alters, op.op_type = "alter_column") ∧
        List.Sorted (· < ·) (adds.map fun op => (op.column).getD "") ∧
        List.Sorted (· < ·) (drops.map fun op => (op.column).getD "") ∧
        List.Sorted (· < ·) (alters.map fun op => (op.column).getD "") := by
  refine ⟨rfl, ?_, ?_, ?_, ?_⟩
  · exact sortedLt_sortKeys _ (ht.1.filter _)
  · exact sortedLt_sortKeys _ (hs.1.filter _)
  · exact sortedLt_sortKeys _ (hs.1.filter _)
  · intro tb _
    refine ⟨_, _, _, rfl, ?_, ?_, ?_, ?_, ?_, ?_⟩
    · intro op hop
      rcases List.mem_map.mp hop with ⟨c, _, rfl⟩
      rfl
    · intro op hop
      rcases List.mem_map.mp hop with ⟨c, _, rfl⟩
      rfl
    · intro op hop
      rcases List.mem_filterMap.mp hop with ⟨c, _, hsome⟩
      by_cases h : dictEq (getCol (getTable s.tables tb).columns c)
          (getCol (getTable t.tables tb).columns c) = true
      · rw [if_pos h] at hsome
        exact Option.noConfusion hsome
      · rw [if_neg h] at hsome
        rw [← Option.some.inj hsome]
    · rw [List.map_map]
      have hid : (((fun op : Operation => (op.column).getD "") ∘
          fun c => (⟨"add_column", tb, some c,
            .colDef (getCol (getTable t.tables tb).columns c), false⟩ : Operation)))
          = fun c => c := rfl
      rw [hid]
      rw [show List.map (fun c => c) = List.map (@id String) from rfl, List.map_id]
      exact sortedLt_sortKeys _ ((getTable_cols_nodup ht tb).filter _)
    · rw [List.map_map]
      have hid : (((fun op : Operation => (op.column).getD "") ∘
          fun c => (⟨"drop_column", tb, some c, .empty, true⟩ : Operation)))
          = fun c => c := rfl
      rw [hid]
      rw [show List.map (fun c => c) = List.map (@id String) from rfl, List.map_id]
      exact sortedLt_sortKeys _ ((getTable_cols_nodup hs tb).filter _)
    · rw [alters_colNames]
      exact (sortedLt_sortKeys _ ((getTable_cols_nodup hs tb).filter _)).sublist
        (List.filter_sublist _)

theorem diff_schemas_ordering_witness :
    diff_schemas wSource wTarget
      = ((newTables wSource.tables wTarget.tables).map
          fun tb => ⟨"create_table", tb, none, .table (getTable wTarget.tables tb), false⟩)
        ++ ((removedTables wSource.tables wTarget.tables).map
          fun tb => ⟨"drop_table", tb, none, .empty, true⟩)
        ++ concatMap
          (fun tb => tableBlock tb (getTable wSource.tables tb).columns
            (getTable wTarget.tables tb).columns)
          (commonTables wSource.tables wTarget.tables) :=
  (diff_schemas_ordering wSource wTarget (by decide) (by decide)).1

/-! Structure of the rendered document (claim C1). -/

/-- Claim C1, amended: the rendered document is the header, all up
statements in operation order, the separator and the `-- DOWN` marker,
and then the reverse of the flattened down-statement list — the down
blocks appear in reverse operation order AND each multi-statement down
block's own internal statement order is reversed as well (the code
reverses `down_lines` statement-wise, not block-wise). -/
theorem render_sql_structure (ops : List Operation) (dialect : String)
    (u d : Operation → List String)
    (hu : ∀ op ∈ ops, emitUp dialect op = some (u op))
    (hd : ∀ op ∈ ops, emitDown dialect op = some (d op)) :
    render_sql ops dialect = some (joinSep "\n"
      (["-- Generated by database-migration-generator", "-- UP"]
        ++ concatMap u ops ++ [""] ++ ["-- DOWN"]
        ++ concatMap (fun op => (d op).reverse) ops.reverse ++ [""])) := by
  rw [render_sql, renderLoop_eq dialect u d ops [] [] hu hd]
  simp only [Option.bind_eq_bind, Option.some_bind, List.nil_append]
  rw [reverse_concatMap]
  rfl

set_option maxRecDepth 4000 in
/-- Claim C1 as stated is false on the code: for a single
`alter_column` operation the three down statements are emitted in
reversed internal order, while the claim requires each down block to
keep its own statement order. -/
theorem render_sql_claimC1_false :
    render_sql [opAlterW] "postgres" ≠ render_sql_claimC1 [opAlterW] "postgres" := by
  decide

theorem render_sql_structure_witness :
    render_sql [opDropW] "postgres" = some (joinSep "\n"
      (["-- Generated by database-migration-generator", "-- UP"]
        ++ concatMap (fun _ => ["DROP TABLE \"legacy\";"]) [opDropW] ++ [""] ++ ["-- DOWN"]
        ++ concatMap
          (fun op => ((fun _ : Operation =>
            ["-- manual rollback required: recreate dropped table \"legacy\""]) op).reverse)
          [opDropW].reverse ++ [""])) :=
  render_sql_structure [opDropW] "postgres"
    (fun _ => ["DROP TABLE \"legacy\";"])
    (fun _ => ["-- manual rollback required: recreate dropped table \"legacy\""])
    (by decide) (by decide)

/-! Totality of diffing and rendering (claim C8). -/

theorem column_sql_isSome (n : String) (cd : ColDef) (dialect : String)
    (h : (cd.lookup "type").isSome = true) : (column_sql n cd dialect).isSome = true := by
  rcases Option.isSome_iff_exists.mp h with ⟨ty, hty⟩
  rw [column_sql, hty]
  rfl

theorem renderCols_isSome (cols : ColsDict) (dialect : String) :
    ∀ names : List String,
    (∀ n ∈ names, ((getCol cols n).lookup "type").isSome = true) →
    (renderCols cols dialect names).isSome = true
  | [], _ => rfl
  | n :: ns, h => by
    rw [renderCols]
    have h1 := column_sql_isSome n (getCol cols n) dialect (h n (List.mem_cons_self _ _))
    rcases Option.isSome_iff_exists.mp h1 with ⟨s1, hs1⟩
    have h2 := renderCols_isSome cols dialect ns fun x hx => h x (List.mem_cons_of_mem _ hx)
    rcases Option.isSome_iff_exists.mp h2 with ⟨rest, hrest⟩
    rw [hs1, hrest]
    rfl

theorem pgAlterLines_isSome (table : String) (column : Option String) (d : ColDef)
    (h : (d.lookup "type").isSome = true) : (pgAlterLines table column d).isSome = true := by
  rcases Option.isSome_iff_exists.mp h with ⟨ty, hty⟩
  rw [pgAlterLines, hty]
  rfl

theorem cols_typed {s : Schema} (hs : typedSchema s) {tb : String} :
    ∀ c ∈ keyList (getTable s.tables tb).columns,
    ((getCol (getTable s.tables tb).columns c).lookup "type").isSome = true := by
  intro c hc
  rcases getTable_cases s.tables tb with hm | hd
  · rcases mem_keyList_lookup _ hc with ⟨v, hv, hvm⟩
    rw [getCol, hv, Option.getD_some]
    exact hs _ hm _ hvm
  · rw [hd] at hc
    simp [keyList] at hc

theorem create_up_isSome (tb : String) (td : TableDef)
    (h : ∀ c ∈ keyList td.columns, ((getCol td.columns c).lookup "type").isSome = true) :
    (pg_up_sql ⟨"create_table", tb, none, .table td, false⟩).isSome = true ∧
    (sqlite_up_sql ⟨"create_table", tb, none, .table td, false⟩).isSome = true := by
  have hp : ∀ dl : String, (renderCols td.columns dl (sortKeys (keyList td.columns))).isSome = true :=
    fun dl => renderCols_isSome td.columns dl _ fun n hn => h n ((mem_sortKeys n _).mp hn)
  constructor
  · rw [pg_up_sql]
    rcases Option.isSome_iff_exists.mp (hp "postgres") with ⟨r, hr⟩
    simp only [Payload.columnsD]
    rw [if_pos (by simp), Option.bind_eq_bind, Option.some_bind, hr]
    rfl
  · rw [sqlite_up_sql]
    rcases Option.isSome_iff_exists.mp (hp "sqlite") with ⟨r, hr⟩
    simp only [Payload.columnsD]
    rw [if_pos (by simp), Option.bind_eq_bind, Option.some_bind, hr]
    rfl

theorem add_up_isSome (tb c : String) (cd : ColDef)
    (h : (cd.lookup "type").isSome = true) :
    (pg_up_sql ⟨"add_column", tb, some c, .colDef cd, false⟩).isSome = true ∧
    (sqlite_up_sql ⟨"add_column", tb, some c, .colDef cd, false⟩).isSome = true := by
  constructor
  · rw [pg_up_sql]
    rcases Option.isSome_iff_exists.mp (column_sql_isSome c cd "postgres" h) with ⟨r, hr⟩
    rw [if_neg (by simp), if_neg (by simp), if_pos (by simp)]
    simp only [Payload.columnDefD, Option.bind_eq_bind, Option.some_bind]
    rw [show ((some c).getD "") = c from rfl, hr]
    rfl
  · rw [sqlite_up_sql]
    rcases Option.isSome_iff_exists.mp (column_sql_isSome c cd "sqlite" h) with ⟨r, hr⟩
    rw [if_neg (by simp), if_neg (by simp), if_pos (by simp)]
    simp only [Payload.columnDefD, Option.bind_eq_bind, Option.some_bind]
    rw [show ((some c).getD "") = c from rfl, hr]
    rfl

theorem alter_emit_isSome (tb c : String) (f g : ColDef)
    (hf : (f.lookup "type").isSome = true) (hg : (g.lookup "type").isSome = true) :
    (pg_up_sql ⟨"alter_column", tb, some c, .fromTo f g,
      alterDestructive f g⟩).isSome = true ∧
    (pg_down_sql ⟨"alter_column", tb, some c, .fromTo f g,
      alterDestructive f g⟩).isSome = true := by
  constructor
  · rw [pg_up_sql]
    rw [if_neg (by simp), if_neg (by simp), if_neg (by simp), if_neg (by simp), if_pos (by simp)]
    simp only [Payload.fromToD, Option.bind_eq_bind, Option.some_bind]
    exact pgAlterLines_isSome tb (some c) g hg
  · rw [pg_down_sql]
    rw [if_neg (by simp), if_neg (by simp), if_neg (by simp), if_neg (by simp), if_pos (by simp)]
    simp only [Payload.fromToD, Option.bind_eq_bind, Option.some_bind]
    exact pgAlterLines_isSome tb (some c) f hf

theorem diff_op_emit_isSome {s t : Schema} (hs : typedSchema s) (ht : typedSchema t)
    (dialect : String) {op : Operation} (h : op ∈ diff_schemas s t) :
    (emitUp dialect op).isSome = true ∧ (emitDown dialect op).isSome = true := by
  have main : (pg_up_sql op).isSome = true ∧ (pg_down_sql op).isSome = true ∧
      (sqlite_up_sql op).isSome = true ∧ (sqlite_down_sql op).isSome = true := by
    rcases mem_diff_cases h with ⟨tb, _, _, rfl⟩ | ⟨tb, _, _, rfl⟩ | ⟨tb, hts, htt, hblk⟩
    · exact ⟨(create_up_isSome tb _ (cols_typed ht)).1, rfl,
        (create_up_isSome tb _ (cols_typed ht)).2, rfl⟩
    · exact ⟨rfl, rfl, rfl, rfl⟩
    · rcases mem_tableBlock hblk with ⟨c, hct, _, rfl⟩ | ⟨c, _, _, rfl⟩ | ⟨c, hcs, hct, _, rfl⟩
      · have hty := @cols_typed t ht tb c hct
        exact ⟨(add_up_isSome tb c _ hty).1, rfl, (add_up_isSome tb c _ hty).2, rfl⟩
      · exact ⟨rfl, rfl, rfl, rfl⟩
      · have hf := @cols_typed s hs tb c hcs
        have hg := @cols_typed t ht tb c hct
        exact ⟨(alter_emit_isSome tb c _ _ hf hg).1, (alter_emit_isSome tb c _ _ hf hg).2,
          rfl, rfl⟩
  constructor
  · rw [emitUp]
    split
    · exact main.1
    · exact main.2.2.1
  · rw [emitDown]
    split
    · exact main.2.1
    · exact main.2.2.2

theorem renderLoop_isSome (dialect : String) :
    ∀ (ops : List Operation) (up down : List String),
    (∀ op ∈ ops, (emitUp dialect op).isSome = true ∧ (emitDown dialect op).isSome = true) →
    (renderLoop dialect ops up down).isSome = true
  | [], _, _, _ => rfl
  | op :: rest, up, down, h => by
    rw [renderLoop]
    rcases h op (List.mem_cons_self _ _) with ⟨h1, h2⟩
    rcases Option.isSome_iff_exists.mp h1 with ⟨uu, huu⟩
    rcases Option.isSome_iff_exists.mp h2 with ⟨dd, hdd⟩
    rw [huu, hdd]
    simp only [Option.bind_eq_bind, Option.some_bind]
    exact renderLoop_isSome dialect rest _ _ fun o ho => h o (List.mem_cons_of_mem _ ho)

/-- Claim C8: on schemas whose every column definition carries a
`type` (the `columns` mapping being guaranteed by the data model), the
diff is total by construction and full-SQL rendering of it returns a
document for every dialect; an operation of an unknown kind renders as
a single comment line naming the kind in all four emitters, so it never
aborts the rendering of the remaining operations. -/
theorem diff_render_total (s t : Schema) (dialect : String)
    (hs : typedSchema s) (ht : typedSchema t) :
    (∃ out, render_sql (diff_schemas s t) dialect = some out) ∧
    (∀ op : Operation,
      op.op_type ≠ "create_table" → op.op_type ≠ "drop_table" → op.op_type ≠ "add_column" →
      op.op_type ≠ "drop_column" → op.op_type ≠ "alter_column" →
      pg_up_sql op = some ["-- unsupported operation: " ++ op.op_type] ∧
      pg_down_sql op = some ["-- unsupported operation: " ++ op.op_type] ∧
      sqlite_up_sql op = some ["-- unsupported operation: " ++ op.op_type] ∧
      sqlite_down_sql op = some ["-- unsupported operation: " ++ op.op_type]) := by
  constructor
  · have hl := renderLoop_isSome dialect (diff_schemas s t) [] []
      fun op hop => diff_op_emit_isSome hs ht dialect hop
    rcases Option.isSome_iff_exists.mp hl with ⟨pair, hpair⟩
    refine ⟨joinSep "\n"
      (["-- Generated by database-migration-generator", "-- UP"]
        ++ pair.1 ++ [""] ++ ["-- DOWN"] ++ pair.2.reverse ++ [""]), ?_⟩
    rw [render_sql, hpair]
    rfl
  · intro op h1 h2 h3 h4 h5
    have e1 : (op.op_type == "create_table") = false := beq_eq_false_iff_ne.mpr h1
    have e2 : (op.op_type == "drop_table") = false := beq_eq_false_iff_ne.mpr h2
    have e3 : (op.op_type == "add_column") = false := beq_eq_false_iff_ne.mpr h3
    have e4 : (op.op_type == "drop_column") = false := beq_eq_false_iff_ne.mpr h4
    have e5 : (op.op_type == "alter_column") = false := beq_eq_false_iff_ne.mpr h5
    refine ⟨?_, ?_, ?_, ?_⟩
    · simp [pg_up_sql, e1, e2, e3, e4, e5]
    · simp [pg_down_sql, e1, e2, e3, e4, e5]
    · simp [sqlite_up_sql, e1, e2, e3, e4, e5]
    · simp [sqlite_down_sql, e1, e2, e3, e4, e5]

theorem diff_render_total_witness :
    (∃ out, render_sql (diff_schemas wSource wTarget) "postgres" = some out) ∧
    (∀ op : Operation,
      op.op_type ≠ "create_table" → op.op_type ≠ "drop_table" → op.op_type ≠ "add_column" →
      op.op_type ≠ "drop_column" → op.op_type ≠ "alter_column" →
      pg_up_sql op = some ["-- unsupported operation: " ++ op.op_type] ∧
      pg_down_sql op = some ["-- unsupported operation: " ++ op.op_type] ∧
      sqlite_up_sql op = some ["-- unsupported operation: " ++ op.op_type] ∧
      sqlite_down_sql op = some ["-- unsupported operation: " ++ op.op_type]) :=
  diff_render_total wSource wTarget "postgres" (by decide) (by decide)

theorem dry_run_summary_correct_witness :
    dry_run_summary [opDropW] = dry_run_summary_spec [opDropW] ∧
    ∀ ops2 : List Operation,
      [opDropW].map (fun op => (op.op_type, op.destructive))
        = ops2.map (fun op => (op.op_type, op.destructive)) →
      dry_run_summary [opDropW] = dry_run_summary ops2 :=
  dry_run_summary_correct [opDropW]
